import Mathlib

/-!
Verification development for the horizon-agent repository (src/app.py).

The definitions below are a shallow embedding of the Python source:

* the on-disk workspace is a functional association list `Fs` from file
  paths to contents (a later binding shadows earlier ones, as a write
  overwrites a file);
* machine side effects (subprocess execution) are passed in as explicit
  oracle functions;
* Python exceptions are modelled with `Except String`;
* Python library primitives used by the source (`str.replace`,
  `str.splitlines`, `file.readlines`, `list.insert`, slicing,
  `os.path.join`, `os.path.basename`) are reproduced as executable
  functions with CPython semantics, restricted to the newline character
  as the only line separator.
-/

/-- JSON values, as produced by `json.loads` in the source.  Numbers are
restricted to integers, which is all the tool-call payloads carry. -/
inductive Json where
  | str (s : String)
  | num (n : Int)
  | bool (b : Bool)
  | null
  | arr (elems : List Json)
  | obj (fields : List (String × Json))

/-- The workspace file system: file path to file content, most recent
write first. -/
abbrev Fs := List (String × String)

/-- First (most recent) binding of a path, like reading a file. -/
def fsLookup (fs : Fs) (name : String) : Option String :=
  (fs.find? (fun p => p.1 == name)).map (fun p => p.2)

/-- `open(name, 'r')` : the content, or the `FileNotFoundError` message. -/
def fsRead (fs : Fs) (name : String) : Except String String :=
  match fsLookup fs name with
  | some c => .ok c
  | none => .error ("No such file or directory: " ++ name)

/-- `open(name, 'w').write(content)` : bind `name` to `content`. -/
def fsWrite (fs : Fs) (name content : String) : Fs :=
  (name, content) :: fs

/-- `os.remove name` on the model: drop every binding of `name`. -/
def fsRemoveAll (fs : Fs) (name : String) : Fs :=
  fs.filter (fun p => p.1 != name)

/-- `os.path.isabs` : POSIX absolute paths start with a slash. -/
def pathIsAbs (p : String) : Bool :=
  "/".data.isPrefixOf p.data

/-- `os.path.join base name` for the cases the source exercises: an
absolute `name` wins, otherwise the two parts are joined with a slash. -/
def pyJoin (base name : String) : String :=
  if pathIsAbs name then name
  else if base.data.getLast? == some '/' then base ++ name
  else base ++ "/" ++ name

/-- The path-resolution prologue shared by every tool (src/app.py, e.g.
lines 296-297): a relative path is joined onto the tracked current
directory, an absolute path is used as-is. -/
def resolvePath (cwd name : String) : String :=
  if pathIsAbs name then name else pyJoin cwd name

/-- `os.path.basename` : the final path component. -/
def baseName (p : String) : String :=
  String.mk ((p.data.reverse.takeWhile (fun c => c != '/')).reverse)

/-- `os.path.dirname` : everything before the final slash (empty when the
path has no slash). -/
def dirName (p : String) : String :=
  String.mk (((p.data.reverse.dropWhile (fun c => c != '/')).drop 1).reverse)

/-- Backup file path used by the mutating tools (src/app.py line 303):
`os.path.join(BACKUP_DIR, basename + "." + int(time.time()) + ".bak")`
with `BACKUP_DIR = "backups"`; `t` stands for `int(time.time())`. -/
def backupPath (filename : String) (t : Nat) : String :=
  pyJoin "backups" (baseName filename ++ "." ++ toString t ++ ".bak")

/-- Python `\s` whitespace class (for `re.match` in `_get_indentation`). -/
def isPySpace (c : Char) : Bool :=
  c == ' ' || c == '\t' || c == '\n' || c == '\r' || c == '\x0b' || c == '\x0c'

/-- `EnhancedAIAssistant._get_indentation` (src/app.py lines 205-207):
the leading whitespace of `s`, via `re.match(r'^(\s*)', s)`. -/
def get_indentation (s : String) : String :=
  String.mk (s.data.takeWhile isPySpace)

/-- `str.lower`, character by character. -/
def pyLower (s : String) : String :=
  String.mk (s.data.map Char.toLower)

/-- Python `needle in hay` on strings: substring containment, true for the
empty needle. -/
def containsSub : List Char → List Char → Bool
  | [], needle => needle.isEmpty
  | c :: rest, needle => needle.isPrefixOf (c :: rest) || containsSub rest needle

/-- String-level substring containment (Python `t in s`). -/
def strContains (s t : String) : Bool :=
  containsSub s.data t.data

/-- `str.endswith`. -/
def strEndsWith (s suf : String) : Bool :=
  suf.data.isSuffixOf s.data

/-- `file.readlines()` : split after every newline, keeping the
newlines; a trailing segment without a newline is kept as-is. -/
def splitKeepNlAux : List Char → List Char → List (List Char)
  | [], acc => if acc.isEmpty then [] else [acc.reverse]
  | c :: rest, acc =>
    if c == '\n' then (c :: acc).reverse :: splitKeepNlAux rest []
    else splitKeepNlAux rest (c :: acc)

/-- `file.readlines()` on a whole content string. -/
def pyReadlines (s : String) : List String :=
  (splitKeepNlAux s.data []).map String.mk

/-- `str.splitlines()` (keepends=False), with the newline character as
the only line separator. -/
def splitNlAux : List Char → List Char → List (List Char)
  | [], acc => if acc.isEmpty then [] else [acc.reverse]
  | c :: rest, acc =>
    if c == '\n' then acc.reverse :: splitNlAux rest []
    else splitNlAux rest (c :: acc)

/-- `str.splitlines()` on a whole content string. -/
def pySplitlines (s : String) : List String :=
  (splitNlAux s.data []).map String.mk

/-- `str.replace` with an empty pattern: the replacement is inserted
before every character and at the end, as CPython does. -/
def pyReplaceEmpty : List Char → List Char → List Char
  | [], new => new
  | c :: rest, new => new ++ c :: pyReplaceEmpty rest new

/-- `str.replace` worker for a nonempty pattern: leftmost-first,
non-overlapping, replacing every occurrence.  The fuel argument only
bounds the recursion; `hay.length + 1` is always enough because each
step consumes at least one character of `hay`. -/
def pyReplaceAux : Nat → List Char → List Char → List Char → List Char
  | 0, hay, _, _ => hay
  | _ + 1, [], _, _ => []
  | fuel + 1, c :: rest, old, new =>
    if old.isPrefixOf (c :: rest) then
      new ++ pyReplaceAux fuel ((c :: rest).drop old.length) old new
    else
      c :: pyReplaceAux fuel rest old new

/-- CPython `hay.replace(old, new)` on character lists. -/
def pyReplace (hay old new : List Char) : List Char :=
  if old.isEmpty then pyReplaceEmpty hay new
  else pyReplaceAux (hay.length + 1) hay old new

/-- CPython `s.replace(old, new)` on strings (used by `replace_code`,
src/app.py line 334, and the replace preview, line 709). -/
def pyStrReplace (s old new : String) : String :=
  String.mk (pyReplace s.data old.data new.data)

/-- CPython `list.insert(i, x)` index clamping: a negative index counts
from the end (clamped at 0), a nonnegative one is clamped at the
length.  No index is ever out of bounds. -/
def pyInsertPos (len : Nat) (i : Int) : Nat :=
  if i < 0 then ((len : Int) + i).toNat else min i.toNat len

/-- CPython `l.insert(i, x)`. -/
def pyInsert (l : List α) (i : Int) (x : α) : List α :=
  let pos := pyInsertPos l.length i
  l.take pos ++ x :: l.drop pos

/-- CPython slice endpoint normalisation for `l[a:b]` (step 1). -/
def pySliceIdx (len : Nat) (i : Int) : Nat :=
  if i < 0 then ((len : Int) + i).toNat else min i.toNat len

/-- CPython `l[a:b]`. -/
def pySlice (l : List α) (a b : Int) : List α :=
  let s := pySliceIdx l.length a
  let e := pySliceIdx l.length b
  (l.drop s).take (e - s)

/-- Circuit-breaker state names (src/app.py line 58). -/
inductive CBState where
  | CLOSED
  | OPEN
  | HALF_OPEN
deriving DecidableEq, Repr

/-- `CircuitBreaker` (src/app.py lines 52-58): configuration plus the
mutable fields `failure_count`, `last_failure_time` and `state`. -/
structure CircuitBreaker where
  failure_threshold : Nat
  recovery_timeout : Int
  failure_count : Nat
  last_failure_time : Int
  state : CBState
deriving DecidableEq, Repr

/-- `CircuitBreaker.__init__` (src/app.py lines 53-58): fresh breaker,
CLOSED with zero failures. -/
def CircuitBreaker.init (failure_threshold : Nat := 5) (recovery_timeout : Int := 60) : CircuitBreaker :=
  { failure_threshold := failure_threshold
    recovery_timeout := recovery_timeout
    failure_count := 0
    last_failure_time := 0
    state := .CLOSED }

/-- The OPEN-state prologue of `CircuitBreaker.call` (src/app.py lines
61-65): while OPEN, advance to HALF_OPEN once the recovery timeout has
elapsed, otherwise refuse to proceed (the `raise` branch).  Returns the
updated breaker and whether the call may proceed. -/
def CircuitBreaker.preCheck (cb : CircuitBreaker) (now : Int) : CircuitBreaker × Bool :=
  if cb.state = .OPEN then
    if now - cb.last_failure_time > cb.recovery_timeout then
      ({ cb with state := .HALF_OPEN }, true)
    else
      (cb, false)
  else
    (cb, true)

/-- The success path of `CircuitBreaker.call` (src/app.py lines 68-72):
a HALF_OPEN success closes the breaker and zeroes the failure count. -/
def CircuitBreaker.onSuccess (cb : CircuitBreaker) : CircuitBreaker :=
  if cb.state = .HALF_OPEN then { cb with state := .CLOSED, failure_count := 0 }
  else cb

/-- The exception path of `CircuitBreaker.call` (src/app.py lines 73-78):
count the failure, record its time, and trip to OPEN at the threshold. -/
def CircuitBreaker.onFailure (cb : CircuitBreaker) (now : Int) : CircuitBreaker :=
  let cb2 := { cb with failure_count := cb.failure_count + 1, last_failure_time := now }
  if cb2.failure_count ≥ cb2.failure_threshold then { cb2 with state := .OPEN }
  else cb2

/-- What a `CircuitBreaker.call` invocation does from the caller's point
of view: rejected while open, or the wrapped call's own outcome. -/
inductive CBCallResult where
  | rejected
  | ok
  | raised
deriving DecidableEq, Repr

/-- `CircuitBreaker.call` (src/app.py lines 60-78).  `now` stands for
`time.time()` and `outcome` for whether the wrapped `func` returns
normally (`true`) or raises (`false`). -/
def CircuitBreaker.call (cb : CircuitBreaker) (now : Int) (outcome : Bool) : CircuitBreaker × CBCallResult :=
  let pre := cb.preCheck now
  if pre.2 then
    if outcome then (pre.1.onSuccess, .ok)
    else (pre.1.onFailure now, .raised)
  else
    (pre.1, .rejected)

/-- Fold a sequence of `(time, outcome)` calls through a breaker. -/
def CircuitBreaker.runCalls (cb : CircuitBreaker) (calls : List (Int × Bool)) : CircuitBreaker :=
  calls.foldl (fun c p => (c.call p.1 p.2).1) cb

/-- The sleep duration computed by the rate limiter in
`_execute_model_call` (src/app.py lines 387-392): sleep for the
remainder of the interval when too little time has elapsed, else not at
all. -/
def waitTime (request_interval last_request_time now : Int) : Int :=
  let elapsed_time := now - last_request_time
  if elapsed_time < request_interval then request_interval - elapsed_time
  else 0

/-- The timestamp recorded as `last_request_time` when the call is then
issued (src/app.py line 394): the pre-wait clock reading plus however
long the sleep actually took (`sleepDur ≥ waitTime`, since `time.sleep`
never returns early). -/
def nextRequestTime (now sleepDur : Int) : Int :=
  now + sleepDur

/-- `self.request_interval` (src/app.py line 180). -/
def request_interval : Int := 16

/-- What a tool function returns to its caller: a Python dict rendered
as key/value pairs, or (for `run_command`) a plain string. -/
inductive ToolResult where
  | dict (fields : List (String × Json))
  | str (s : String)

/-- `os.listdir` on the model: fails (FileNotFoundError) when no file
lives under `dir`; otherwise the base names of the direct children.
Directories themselves are not modelled, so an empty directory does not
exist. -/
def fsListdir (fs : Fs) (dir : String) : Except String (List String) :=
  let under := (fs.map (fun p => p.1)).filter (fun n => (dir ++ "/").data.isPrefixOf n.data)
  if under.isEmpty then .error ("No such file or directory: " ++ dir)
  else .ok ((under.filter (fun n => dirName n == dir)).map baseName)

/-- `EnhancedAIAssistant.list_files` (src/app.py lines 209-219). -/
def list_files (cwd : String) (fs : Fs) (directory : String) : Fs × ToolResult :=
  let dir := resolvePath cwd directory
  match fsListdir fs dir with
  | .ok files => (fs, .dict [("files", Json.arr (files.map Json.str)), ("directory", Json.str dir)])
  | .error e => (fs, .dict [("error", Json.str e)])

/-- The optional line-range restriction of `read_file` (src/app.py
lines 231-235), following the source's Python truthiness: a `0` bound
behaves like an absent one. -/
def readContentRange (content : String) (start_line end_line : Option Int) : String :=
  if start_line.isSome || end_line.isSome then
    let lines := pySplitlines content
    let s : Int := match start_line with
      | some n => if n == 0 then 0 else n - 1
      | none => 0
    let e : Int := match end_line with
      | some n => if n == 0 then (lines.length : Int) else n
      | none => (lines.length : Int)
    String.intercalate "\n" (pySlice lines s e)
  else content

/-- `EnhancedAIAssistant.read_file` (src/app.py lines 221-239). -/
def read_file (cwd : String) (fs : Fs) (filename : String) (start_line end_line : Option Int) : Fs × ToolResult :=
  let path := resolvePath cwd filename
  match fsRead fs path with
  | .error e => (fs, .dict [("error", Json.str e)])
  | .ok content =>
    (fs, .dict [("content", Json.str (readContentRange content start_line end_line)), ("filename", Json.str path)])

/-- `EnhancedAIAssistant.write_file` (src/app.py lines 241-259): back up
an existing file, then overwrite it.  `t` stands for `int(time.time())`. -/
def write_file (cwd : String) (t : Nat) (fs : Fs) (filename content : String) : Fs × ToolResult :=
  let path := resolvePath cwd filename
  let fs1 := match fsLookup fs path with
    | some old => fsWrite fs (backupPath path t) old
    | none => fs
  (fsWrite fs1 path content, .dict [("success", Json.bool true), ("filename", Json.str path)])

/-- `EnhancedAIAssistant.delete_file` (src/app.py lines 261-278): back up
an existing file, then `os.remove` it; a missing file makes `os.remove`
raise, which the handler turns into an error dict. -/
def delete_file (cwd : String) (t : Nat) (fs : Fs) (filename : String) : Fs × ToolResult :=
  let path := resolvePath cwd filename
  let fs1 := match fsLookup fs path with
    | some old => fsWrite fs (backupPath path t) old
    | none => fs
  match fsLookup fs1 path with
  | some _ => (fsRemoveAll fs1 path, .dict [("success", Json.bool true), ("filename", Json.str path)])
  | none => (fs1, .dict [("error", Json.str ("No such file or directory: " ++ path))])

/-- `EnhancedAIAssistant.create_directory` (src/app.py lines 280-290):
`os.makedirs(..., exist_ok=True)` cannot fail in the model. -/
def create_directory (cwd : String) (fs : Fs) (directory_name : String) : Fs × ToolResult :=
  let path := resolvePath cwd directory_name
  (fs, .dict [("success", Json.bool true), ("directory", Json.str path)])

/-- `EnhancedAIAssistant.insert_at_line` (src/app.py lines 292-316):
read the file, back it up, `lines.insert(line_number - 1, code + '\n')`,
and write the lines back.  No bounds check is performed. -/
def insert_at_line (cwd : String) (t : Nat) (fs : Fs) (filename code_to_insert : String) (line_number : Int) : Fs × ToolResult :=
  let path := resolvePath cwd filename
  match fsRead fs path with
  | .error e => (fs, .dict [("error", Json.str e)])
  | .ok content =>
    let fs1 := fsWrite fs (backupPath path t) content
    let lines := pyReadlines content
    let lines2 := pyInsert lines (line_number - 1) (code_to_insert ++ "\n")
    (fsWrite fs1 path (String.join lines2),
      .dict [("success", Json.bool true), ("filename", Json.str path), ("line", Json.num line_number)])

/-- `EnhancedAIAssistant.replace_code` (src/app.py lines 318-341): read
the file, back it up, `content.replace(old_code, new_code)`, write the
result back, report success.  There is no occurrence check and no
re-indentation. -/
def replace_code (cwd : String) (t : Nat) (fs : Fs) (filename old_code new_code : String) : Fs × ToolResult :=
  let path := resolvePath cwd filename
  match fsRead fs path with
  | .error e => (fs, .dict [("error", Json.str e)])
  | .ok content =>
    let fs1 := fsWrite fs (backupPath path t) content
    let new_content := pyStrReplace content old_code new_code
    (fsWrite fs1 path new_content, .dict [("success", Json.bool true), ("filename", Json.str path)])

/-- The file scan of `EnhancedAIAssistant.search_files` (src/app.py
lines 350-362): walk the files under the directory, keep those whose
base name ends with the optional file pattern and whose content
contains the pattern case-insensitively. -/
def searchMatches (cwd : String) (fs : Fs) (pattern directory : String) (file_pattern : Option String) : List String :=
  let dir := resolvePath cwd directory
  let candidates := (fs.map (fun p => p.1)).filter (fun n => (dir ++ "/").data.isPrefixOf n.data)
  candidates.filter (fun n =>
    (match file_pattern with
     | some fp => strEndsWith (baseName n) fp
     | none => true) &&
    (match fsLookup fs n with
     | some content => strContains (pyLower content) (pyLower pattern)
     | none => false))

/-- Result assembly of `search_files` (src/app.py lines 343-365). -/
def search_files (cwd : String) (fs : Fs) (pattern directory : String) (file_pattern : Option String) : Fs × ToolResult :=
  (fs, .dict [("results", Json.arr ((searchMatches cwd fs pattern directory file_pattern).map Json.str)),
    ("pattern", Json.str pattern)])

/-- Outcome of `subprocess.run(command, shell=True, capture_output=True,
text=True, timeout=...)`: normal completion with an exit code and the
captured streams, or an exception (for instance `TimeoutExpired`). -/
inductive ExecOutcome where
  | completed (returncode : Int) (stdout stderr : String)
  | exn (msg : String)

/-- The `run_command` allow-list (src/app.py line 369). -/
def safe_commands : List String :=
  ["python", "pip", "npm", "node", "git", "ls", "cat", "head", "tail"]

/-- The allow-list test (src/app.py line 370):
`any(cmd in command.lower() for cmd in safe_commands)`. -/
def commandAllowed (command : String) : Bool :=
  safe_commands.any (fun c => strContains (pyLower command) c)

/-- `EnhancedAIAssistant.run_command` (src/app.py lines 367-381).  The
`exec` oracle stands for `subprocess.run`; its second argument is the
timeout the source passes (30 seconds).  A disallowed command never
reaches the oracle. -/
def run_command (exec : String → Nat → ExecOutcome) (command : String) : String :=
  if !(commandAllowed command) then
    "Error: Command not allowed for security reasons."
  else
    match exec command 30 with
    | .completed rc out err =>
      if rc == 0 then "Command executed successfully:\n" ++ out
      else "Command failed:\n" ++ err
    | .exn e => "Error executing command: " ++ e

/-- A tool invocation with the declared parameters of the catalog entry
(src/app.py lines 192-203), one constructor per catalog tool. -/
inductive ToolInvocation where
  | list_files (directory : String)
  | read_file (filename : String) (start_line end_line : Option Int)
  | write_file (filename content : String)
  | delete_file (filename : String)
  | create_directory (directory_name : String)
  | insert_at_line (filename code_to_insert : String) (line_number : Int)
  | replace_code (filename old_code new_code : String)
  | search_files (pattern directory : String) (file_pattern : Option String)
  | run_command (command : String)

/-- Dispatch through `available_functions` (src/app.py lines 163-173):
run the named tool on the workspace. -/
def callTool (exec : String → Nat → ExecOutcome) (cwd : String) (t : Nat) (fs : Fs) : ToolInvocation → Fs × ToolResult
  | .list_files d => list_files cwd fs d
  | .read_file f s e => read_file cwd fs f s e
  | .write_file f c => write_file cwd t fs f c
  | .delete_file f => delete_file cwd t fs f
  | .create_directory d => create_directory cwd fs d
  | .insert_at_line f c ln => insert_at_line cwd t fs f c ln
  | .replace_code f o n => replace_code cwd t fs f o n
  | .search_files p d fp => search_files cwd fs p d fp
  | .run_command c => (fs, .str (run_command exec c))

/-- Decode a required string keyword argument (`f(**tool_args)`); a
missing or non-string value raises a `TypeError` before the tool body
runs. -/
def argStr (args : List (String × Json)) (k : String) : Except String String :=
  match args.lookup k with
  | some (Json.str s) => .ok s
  | _ => .error ("TypeError: missing or invalid argument " ++ k)

/-- Decode an optional string keyword argument with a default. -/
def argStrD (args : List (String × Json)) (k dflt : String) : Except String String :=
  match args.lookup k with
  | some (Json.str s) => .ok s
  | none => .ok dflt
  | some _ => .error ("TypeError: invalid argument " ++ k)

/-- Decode an optional string keyword argument defaulting to `None`. -/
def argStrOpt (args : List (String × Json)) (k : String) : Except String (Option String) :=
  match args.lookup k with
  | some (Json.str s) => .ok (some s)
  | none => .ok none
  | some _ => .error ("TypeError: invalid argument " ++ k)

/-- Decode an optional integer keyword argument defaulting to `None`. -/
def argIntOpt (args : List (String × Json)) (k : String) : Except String (Option Int) :=
  match args.lookup k with
  | some (Json.num n) => .ok (some n)
  | none => .ok none
  | some _ => .error ("TypeError: invalid argument " ++ k)

/-- Decode a required integer keyword argument. -/
def argInt (args : List (String × Json)) (k : String) : Except String Int :=
  match args.lookup k with
  | some (Json.num n) => .ok n
  | _ => .error ("TypeError: missing or invalid argument " ++ k)

/-- Bind the JSON argument map of a parsed tool call to the declared
parameters of the named tool (`function_to_call(**tool_args)`), per the
catalog signatures of src/app.py lines 192-203. -/
def decodeInvocation (name : String) (args : List (String × Json)) : Except String ToolInvocation :=
  if name == "list_files" then do
    let d ← argStrD args "directory" "."
    return .list_files d
  else if name == "read_file" then do
    let f ← argStr args "filename"
    let s ← argIntOpt args "start_line"
    let e ← argIntOpt args "end_line"
    return .read_file f s e
  else if name == "write_file" then do
    let f ← argStr args "filename"
    let c ← argStr args "content"
    return .write_file f c
  else if name == "delete_file" then do
    let f ← argStr args "filename"
    return .delete_file f
  else if name == "create_directory" then do
    let d ← argStr args "directory_name"
    return .create_directory d
  else if name == "insert_at_line" then do
    let f ← argStr args "filename"
    let c ← argStr args "code_to_insert"
    let ln ← argInt args "line_number"
    return .insert_at_line f c ln
  else if name == "replace_code" then do
    let f ← argStr args "filename"
    let o ← argStr args "old_code"
    let n ← argStr args "new_code"
    return .replace_code f o n
  else if name == "search_files" then do
    let p ← argStr args "pattern"
    let d ← argStrD args "directory" "."
    let fp ← argStrOpt args "file_pattern"
    return .search_files p d fp
  else if name == "run_command" then do
    let c ← argStr args "command"
    return .run_command c
  else .error ("Tool '" ++ name ++ "' not found.")

/-- The set of dangerous tools gated behind human confirmation
(src/app.py line 586). -/
def dangerous_tools : List String :=
  ["write_file", "delete_file", "create_directory", "replace_code", "insert_at_line"]

/-- The keys of `available_functions` (src/app.py lines 163-173). -/
def availableFunctionNames : List String :=
  ["list_files", "read_file", "write_file", "delete_file", "insert_at_line",
   "replace_code", "create_directory", "search_files", "run_command"]

/-- What `handle_tool_call` hands back to its caller: an action-request
payload for a dangerous tool, the executed tool's result for a safe one,
or an error reply. -/
inductive GatewayResult where
  | action_request (name : String) (args : List (String × Json))
  | executed (result : ToolResult)
  | errorReply (msg : String)

/-- `handle_tool_call` (src/app.py lines 578-631): a dangerous tool is
not executed and its name and arguments are returned as an
action-request payload; otherwise the tool is looked up and executed,
with a lookup miss or a `TypeError` from argument binding reported as a
reply-level error.  The follow-up model round-trip after a successful
execution (lines 604-627) belongs to the excluded model backend; the
executed tool's result is surfaced here. -/
def handle_tool_call (exec : String → Nat → ExecOutcome) (cwd : String) (t : Nat) (fs : Fs)
    (name : String) (args : List (String × Json)) : Fs × GatewayResult :=
  if dangerous_tools.contains name then
    (fs, .action_request name args)
  else if !(availableFunctionNames.contains name) then
    (fs, .errorReply ("Tool '" ++ name ++ "' not found."))
  else
    match decodeInvocation name args with
    | .error e => (fs, .errorReply ("Error executing tool " ++ name ++ ": " ++ e))
    | .ok inv =>
      let p := callTool exec cwd t fs inv
      (p.1, .executed p.2)

/-- Response of a preview endpoint: an error with an HTTP status, or the
computed diffs. -/
inductive PreviewResult where
  | err (status : Nat) (msg : String)
  | okReplace (snippet_diff file_diff : String)
  | okWrite (file_diff : String)

/-- `api_preview_replace_diff` (src/app.py lines 683-721).  `udiff`
stands for `difflib.unified_diff` (an external library collaborator),
taking the two line lists and the two file labels.  The endpoint only
ever reads the file system, and returns it untouched. -/
def api_preview_replace_diff (udiff : List String → List String → String → String → String)
    (fs : Fs) (filename old_code new_code : String) : PreviewResult × Fs :=
  if filename == "" then (.err 400 "filename is required", fs)
  else
    match fsLookup fs filename with
    | none => (.err 404 ("File '" ++ filename ++ "' not found."), fs)
    | some original =>
      let snippet_diff := udiff (pySplitlines old_code) (pySplitlines new_code) "old_code" "new_code"
      let would_be := pyStrReplace original old_code new_code
      let file_diff := udiff (pySplitlines original) (pySplitlines would_be)
        (filename ++ ":original") (filename ++ ":preview")
      (.okReplace snippet_diff file_diff, fs)

/-- `api_preview_write_diff` (src/app.py lines 723-750): a missing file
is treated as empty original content; nothing is written. -/
def api_preview_write_diff (udiff : List String → List String → String → String → String)
    (fs : Fs) (filename content : String) : PreviewResult × Fs :=
  if filename == "" then (.err 400 "filename is required", fs)
  else
    let original := match fsLookup fs filename with
      | some o => o
      | none => ""
    (.okWrite (udiff (pySplitlines original) (pySplitlines content)
      (filename ++ ":original") (filename ++ ":new")), fs)

/-- The opening-brace character, written by code point to keep string
scanning simple. -/
def lbraceChar : Char := Char.ofNat 123

/-- The closing-brace character. -/
def rbraceChar : Char := Char.ofNat 125

/-- The double-quote character. -/
def quoteChar : Char := Char.ofNat 34

/-- Whitespace skipped between JSON tokens. -/
def skipWs (s : List Char) : List Char :=
  s.dropWhile (fun c => c == ' ' || c == '\n' || c == '\t' || c == '\r')

/-- Body of a JSON string literal after its opening quote, up to the
closing quote.  Escape sequences are not supported: a backslash makes
the parse fail (a JSON decoding error, treated as no tool call). -/
def parseStrBody : List Char → List Char → Option (String × List Char)
  | [], _ => none
  | c :: rest, acc =>
    if c == quoteChar then some (String.mk acc.reverse, rest)
    else if c == '\\' then none
    else parseStrBody rest (c :: acc)

/-- Leading decimal digits of the input and the rest. -/
def parseDigits : List Char → List Char → Option (Nat × List Char)
  | [], acc => if acc.isEmpty then none else some (acc.reverse.foldl (fun n c => n * 10 + (c.toNat - 48)) 0, [])
  | c :: rest, acc =>
    if c.isDigit then parseDigits rest (c :: acc)
    else if acc.isEmpty then none
    else some (acc.reverse.foldl (fun n c => n * 10 + (c.toNat - 48)) 0, c :: rest)

/-- Modelled from the spec: the JSON decoder used by the Tool Call
Extractor of spec section 4.4 ("parse its content as JSON").  The
extracting code itself (`_execute_model_call_stream` and its helpers)
is referenced by src/app.py line 571 but is not present under src/, so
the decoder is reconstructed from the spec's words for the grammar the
tool-call payloads use: objects, arrays, strings without escapes,
integers, booleans and null.  Fuel strictly decreases on every
recursive call; `input.length + 1` is always sufficient.  An object or
array is parsed one member at a time, the remaining members being
re-parsed as a smaller object or array. -/
def parseJ : Nat → List Char → Option (Json × List Char)
  | 0, _ => none
  | fuel + 1, input =>
    match skipWs input with
    | [] => none
    | c :: rest =>
      if c == quoteChar then
        match parseStrBody rest [] with
        | some (s, r) => some (Json.str s, r)
        | none => none
      else if c == lbraceChar then
        match skipWs rest with
        | [] => none
        | d :: r2 =>
          if d == rbraceChar then some (Json.obj [], r2)
          else if d == quoteChar then
            match parseStrBody r2 [] with
            | none => none
            | some (key, afterKey) =>
              match skipWs afterKey with
              | [] => none
              | e :: vr =>
                if e == ':' then
                  match parseJ fuel vr with
                  | none => none
                  | some (v, afterVal) =>
                    match skipWs afterVal with
                    | [] => none
                    | f :: er =>
                      if f == ',' then
                        match parseJ fuel (lbraceChar :: er) with
                        | some (Json.obj fields2, r3) => some (Json.obj ((key, v) :: fields2), r3)
                        | _ => none
                      else if f == rbraceChar then some (Json.obj [(key, v)], er)
                      else none
                else none
          else none
      else if c == '[' then
        match skipWs rest with
        | [] => none
        | d :: r2 =>
          if d == ']' then some (Json.arr [], r2)
          else
            match parseJ fuel (d :: r2) with
            | none => none
            | some (v, afterVal) =>
              match skipWs afterVal with
              | [] => none
              | f :: er =>
                if f == ',' then
                  match parseJ fuel ('[' :: er) with
                  | some (Json.arr elems2, r3) => some (Json.arr (v :: elems2), r3)
                  | _ => none
                else if f == ']' then some (Json.arr [v], er)
                else none
      else if "true".data.isPrefixOf (c :: rest) then some (Json.bool true, (c :: rest).drop 4)
      else if "false".data.isPrefixOf (c :: rest) then some (Json.bool false, (c :: rest).drop 5)
      else if "null".data.isPrefixOf (c :: rest) then some (Json.null, (c :: rest).drop 4)
      else if c == '-' then
        match parseDigits rest [] with
        | some (n, r) => some (Json.num (-(n : Int)), r)
        | none => none
      else
        match parseDigits (c :: rest) [] with
        | some (n, r) => some (Json.num (n : Int), r)
        | none => none

/-- Modelled from the spec: `json.loads` over a whole fenced-block body;
trailing non-whitespace is a decoding error. -/
def parseJson (s : String) : Option Json :=
  match parseJ (s.data.length + 1) s.data with
  | some (v, rest) => if (skipWs rest).isEmpty then some v else none
  | none => none

/-- Split `hay` at the first occurrence of `needle`: the part before it
and the part after it. -/
def splitOnceSub : List Char → List Char → Option (List Char × List Char)
  | [], needle => if needle.isEmpty then some ([], []) else none
  | c :: rest, needle =>
    if needle.isPrefixOf (c :: rest) then some ([], (c :: rest).drop needle.length)
    else
      match splitOnceSub rest needle with
      | some (pre, post) => some (c :: pre, post)
      | none => none

/-- Modelled from the spec: locating "a fenced block explicitly marked
as a JSON code fence" (spec section 4.4) — the text between the first
"```json" marker and the next "```" marker. -/
def findFencedJson (text : String) : Option String :=
  match splitOnceSub text.data "```json".data with
  | none => none
  | some (_, afterOpen) =>
    match splitOnceSub afterOpen "```".data with
    | none => none
    | some (inner, _) => some (String.mk inner)

/-- Result of tool-call extraction: a structured ToolCall, or no tool
call with the original full text preserved as the plain reply. -/
inductive ExtractResult where
  | toolCall (name : String) (arguments : List (String × Json))
  | noToolCall (reply : String)

/-- Modelled from the spec: the Tool Call Extractor of spec section 4.4
(the runtime extraction code is not under src/).  Locate a fenced JSON
block and parse it; a successful parse must contain a top-level
`tool_call` key with `name` and `arguments` sub-fields; anything else —
no fence, a decoding error, or a missing field — is "no tool call" with
the full text surfaced as a plain reply. -/
def extract_tool_call (text : String) : ExtractResult :=
  match findFencedJson text with
  | none => .noToolCall text
  | some inner =>
    match parseJson inner with
    | none => .noToolCall text
    | some j =>
      match j with
      | Json.obj fields =>
        match fields.lookup "tool_call" with
        | some (Json.obj tcFields) =>
          match tcFields.lookup "name", tcFields.lookup "arguments" with
          | some (Json.str name), some (Json.obj args) => .toolCall name args
          | _, _ => .noToolCall text
        | _ => .noToolCall text
      | _ => .noToolCall text

/-- Modelled from the spec: re-indenting a replacement block "to match
the indentation of `old_code`'s first line" (spec section 4.6) — each
line of the block is stripped of its own leading whitespace and
prefixed with the given indentation. -/
def reindentBlock (indent s : String) : String :=
  String.intercalate "\n" ((pySplitlines s).map (fun line => indent ++ String.mk (line.data.dropWhile isPySpace)))

/-- Modelled from the spec: the substitution `replace_code` is claimed
to perform (spec section 4.6) — every occurrence of `old_code` replaced
by `new_code` re-indented to `old_code`'s first-line indentation. -/
def specReplaceWithReindent (content old_code new_code : String) : String :=
  pyStrReplace content old_code (reindentBlock (get_indentation old_code) new_code)

/-- The documented success shape of each catalog tool's result: the
success dict it builds in its happy path (src/app.py lines 209-365), or
a plain string for `run_command`. -/
def toolSuccessShape : ToolInvocation → ToolResult → Prop
  | .list_files _, r => ∃ files dir, r = .dict [("files", Json.arr files), ("directory", Json.str dir)]
  | .read_file _ _ _, r => ∃ c f, r = .dict [("content", Json.str c), ("filename", Json.str f)]
  | .write_file _ _, r => ∃ f, r = .dict [("success", Json.bool true), ("filename", Json.str f)]
  | .delete_file _, r => ∃ f, r = .dict [("success", Json.bool true), ("filename", Json.str f)]
  | .create_directory _, r => ∃ d, r = .dict [("success", Json.bool true), ("directory", Json.str d)]
  | .insert_at_line _ _ _, r => ∃ f n, r = .dict [("success", Json.bool true), ("filename", Json.str f), ("line", Json.num n)]
  | .replace_code _ _ _, r => ∃ f, r = .dict [("success", Json.bool true), ("filename", Json.str f)]
  | .search_files _ _ _, r => ∃ results p, r = .dict [("results", Json.arr results), ("pattern", Json.str p)]
  | .run_command _, r => ∃ s, r = .str s

/-- Reading a path just written returns the written content. -/
theorem fsLookup_fsWrite_same (fs : Fs) (n v : String) : fsLookup (fsWrite fs n v) n = some v := by
  unfold fsLookup fsWrite
  rw [List.find?_cons_of_pos _ (by simp)]
  rfl

/-- Python `"" in s` is always true. -/
theorem containsSub_nil (hay : List Char) : containsSub hay [] = true := by
  cases hay <;> simp [containsSub, List.isPrefixOf]

/-- A pattern with no occurrence leaves `pyReplaceAux` as the identity. -/
theorem pyReplaceAux_of_not_contains (fuel : Nat) :
    ∀ (hay old new : List Char), containsSub hay old = false →
      pyReplaceAux fuel hay old new = hay := by
  induction fuel with
  | zero => intro hay old new _; rfl
  | succ f ih =>
    intro hay old new h
    cases hay with
    | nil => rfl
    | cons c rest =>
      simp only [containsSub, Bool.or_eq_false_iff] at h
      simp only [pyReplaceAux, h.1, Bool.false_eq_true, if_false]
      rw [ih rest old new h.2]

/-- `str.replace` with an absent pattern is the identity
(`content.replace(old, new) == content` when `old not in content`). -/
theorem pyStrReplace_of_not_contains (s old new : String) (h : strContains s old = false) :
    pyStrReplace s old new = s := by
  unfold pyStrReplace pyReplace
  have hne : old.data.isEmpty = false := by
    cases hd : old.data with
    | nil =>
      exfalso
      unfold strContains at h
      rw [hd, containsSub_nil] at h
      exact Bool.true_eq_false.mp h
    | cons _ _ => rfl
  rw [if_neg (by simp [hne])]
  rw [pyReplaceAux_of_not_contains _ _ _ _ h]

/-- `list.insert` at an index at or past the length appends. -/
theorem pyInsert_ge_length (l : List α) (i : Int) (x : α) (h : (l.length : Int) ≤ i) :
    pyInsert l i x = l ++ [x] := by
  simp only [pyInsert, pyInsertPos]
  rw [if_neg (by omega)]
  have hmin : min i.toNat l.length = l.length := min_eq_right (by omega)
  rw [hmin, List.take_length, List.drop_length]

/-- `list.insert` at index `-1` (Python `insert(-1, x)`, reached by
`insert_at_line` with `line_number = 0`) puts the element before the
last one. -/
theorem pyInsert_neg_one (l : List α) (x : α) :
    pyInsert l (-1) x = l.take (l.length - 1) ++ x :: l.drop (l.length - 1) := by
  simp only [pyInsert, pyInsertPos]
  rw [if_pos (by omega)]
  have hpos : ((l.length : Int) + (-1)).toNat = l.length - 1 := by omega
  rw [hpos]

/-- `list_files` never changes the workspace. -/
theorem list_files_fst (cwd : String) (fs : Fs) (d : String) : (list_files cwd fs d).1 = fs := by
  cases h : fsListdir fs (resolvePath cwd d) <;> simp [list_files, h]

/-- `read_file` never changes the workspace. -/
theorem read_file_fst (cwd : String) (fs : Fs) (f : String) (s e : Option Int) :
    (read_file cwd fs f s e).1 = fs := by
  cases h : fsRead fs (resolvePath cwd f) <;> simp [read_file, h]

/-- `search_files` never changes the workspace. -/
theorem search_files_fst (cwd : String) (fs : Fs) (p d : String) (fp : Option String) :
    (search_files cwd fs p d fp).1 = fs := by
  rfl

/-- A failing call from CLOSED counts the failure and trips the breaker
exactly when the threshold is reached. -/
theorem cb_call_closed_failure (cb : CircuitBreaker) (now : Int) (h : cb.state = .CLOSED) :
    (cb.call now false).1 =
      (if cb.failure_count + 1 ≥ cb.failure_threshold
       then { cb with failure_count := cb.failure_count + 1, last_failure_time := now, state := .OPEN }
       else { cb with failure_count := cb.failure_count + 1, last_failure_time := now }) := by
  simp only [CircuitBreaker.call, CircuitBreaker.preCheck, h]
  split <;> simp_all [CircuitBreaker.onFailure]

/-- Folding no calls is the identity. -/
theorem cb_runCalls_nil (cb : CircuitBreaker) : cb.runCalls [] = cb := rfl

/-- Folding one more call steps the breaker once. -/
theorem cb_runCalls_cons (cb : CircuitBreaker) (p : Int × Bool) (ps : List (Int × Bool)) :
    cb.runCalls (p :: ps) = ((cb.call p.1 p.2).1).runCalls ps := rfl

/-- Exactly `threshold` consecutive failures starting from a CLOSED
breaker with the remaining budget leave it OPEN with the full count. -/
theorem cb_failures_trip (times : List Int) :
    ∀ cb : CircuitBreaker, cb.state = .CLOSED →
      cb.failure_count + times.length = cb.failure_threshold →
      1 ≤ times.length →
      (cb.runCalls (times.map (fun x => (x, false)))).state = .OPEN ∧
      (cb.runCalls (times.map (fun x => (x, false)))).failure_count = cb.failure_threshold := by
  induction times with
  | nil => intro cb _ hCount hLen; simp at hLen
  | cons t rest ih =>
    intro cb hState hCount _
    rw [List.map_cons, cb_runCalls_cons]
    cases rest with
    | nil =>
      have htrip : cb.failure_count + 1 ≥ cb.failure_threshold := by
        simp at hCount; omega
      rw [List.map_nil, cb_runCalls_nil]
      rw [cb_call_closed_failure cb t hState, if_pos htrip]
      constructor
      · rfl
      · simp at hCount ⊢; omega
    | cons r rs =>
      have hnotrip : ¬ (cb.failure_count + 1 ≥ cb.failure_threshold) := by
        simp [List.length_cons] at hCount; omega
      rw [cb_call_closed_failure cb t hState, if_neg hnotrip]
      exact ih _ hState (by simp [List.length_cons] at hCount ⊢; omega) (by simp)

/-- Successful argument binding for `list_files` yields a `list_files`
invocation. -/
theorem decode_shape_list_files (args : List (String × Json)) (inv : ToolInvocation)
    (h : decodeInvocation "list_files" args = .ok inv) : ∃ d, inv = .list_files d := by
  have h2 : (do
      let d ← argStrD args "directory" "."
      return ToolInvocation.list_files d : Except String ToolInvocation) = .ok inv := h
  cases hd : argStrD args "directory" "." with
  | ok d =>
    rw [hd] at h2
    simp only [Except.bind, bind, pure, Except.pure] at h2
    exact ⟨d, (Except.ok.inj h2).symm⟩
  | error e =>
    rw [hd] at h2
    simp [Except.bind, bind] at h2

/-- Successful argument binding for `read_file` yields a `read_file`
invocation. -/
theorem decode_shape_read_file (args : List (String × Json)) (inv : ToolInvocation)
    (h : decodeInvocation "read_file" args = .ok inv) : ∃ f s e, inv = .read_file f s e := by
  have h2 : (do
      let f ← argStr args "filename"
      let s ← argIntOpt args "start_line"
      let e ← argIntOpt args "end_line"
      return ToolInvocation.read_file f s e : Except String ToolInvocation) = .ok inv := h
  cases hf : argStr args "filename" with
  | error e0 => rw [hf] at h2; simp [Except.bind, bind] at h2
  | ok f =>
    rw [hf] at h2
    simp only [Except.bind, bind] at h2
    cases hs : argIntOpt args "start_line" with
    | error e0 => rw [hs] at h2; simp [Except.bind, bind] at h2
    | ok s =>
      rw [hs] at h2
      simp only [Except.bind, bind] at h2
      cases he : argIntOpt args "end_line" with
      | error e0 => rw [he] at h2; simp [Except.bind, bind] at h2
      | ok e =>
        rw [he] at h2
        simp only [Except.bind, bind, pure, Except.pure] at h2
        exact ⟨f, s, e, (Except.ok.inj h2).symm⟩

/-- Successful argument binding for `search_files` yields a
`search_files` invocation. -/
theorem decode_shape_search_files (args : List (String × Json)) (inv : ToolInvocation)
    (h : decodeInvocation "search_files" args = .ok inv) : ∃ p d fp, inv = .search_files p d fp := by
  have h2 : (do
      let p ← argStr args "pattern"
      let d ← argStrD args "directory" "."
      let fp ← argStrOpt args "file_pattern"
      return ToolInvocation.search_files p d fp : Except String ToolInvocation) = .ok inv := h
  cases hp : argStr args "pattern" with
  | error e0 => rw [hp] at h2; simp [Except.bind, bind] at h2
  | ok p =>
    rw [hp] at h2
    simp only [Except.bind, bind] at h2
    cases hd : argStrD args "directory" "." with
    | error e0 => rw [hd] at h2; simp [Except.bind, bind] at h2
    | ok d =>
      rw [hd] at h2
      simp only [Except.bind, bind] at h2
      cases hfp : argStrOpt args "file_pattern" with
      | error e0 => rw [hfp] at h2; simp [Except.bind, bind] at h2
      | ok fp =>
        rw [hfp] at h2
        simp only [Except.bind, bind, pure, Except.pure] at h2
        exact ⟨p, d, fp, (Except.ok.inj h2).symm⟩

/-- C2: the circuit breaker starts CLOSED with `failure_count = 0`;
after `threshold` consecutive failed calls the state is OPEN; a call
attempted while OPEN at or before the recovery timeout is rejected with
the circuit-open error without touching the breaker (in particular
`failure_count` is not incremented); a call attempted after the timeout
first transitions the state to HALF_OPEN, and a successful call in
HALF_OPEN resets the state to CLOSED with `failure_count = 0`. -/
theorem c2_circuit_breaker (th : Nat) (rt : Int) (times : List Int)
    (cb : CircuitBreaker) (now : Int) (outcome : Bool) :
    ((CircuitBreaker.init th rt).state = .CLOSED ∧ (CircuitBreaker.init th rt).failure_count = 0) ∧
    (1 ≤ th → times.length = th →
      ((CircuitBreaker.init th rt).runCalls (times.map (fun x => (x, false)))).state = .OPEN ∧
      ((CircuitBreaker.init th rt).runCalls (times.map (fun x => (x, false)))).failure_count = th) ∧
    (cb.state = .OPEN → now - cb.last_failure_time ≤ cb.recovery_timeout →
      cb.call now outcome = (cb, .rejected)) ∧
    (cb.state = .OPEN → now - cb.last_failure_time > cb.recovery_timeout →
      cb.preCheck now = ({ cb with state := .HALF_OPEN }, true) ∧
      (cb.call now true).1.state = .CLOSED ∧ (cb.call now true).1.failure_count = 0) ∧
    (cb.state = .HALF_OPEN →
      cb.call now true = ({ cb with state := .CLOSED, failure_count := 0 }, .ok)) := by
  refine ⟨⟨rfl, rfl⟩, ?_, ?_, ?_, ?_⟩
  · intro hth hlen
    exact cb_failures_trip times (CircuitBreaker.init th rt) rfl
      (by simp [CircuitBreaker.init, hlen]) (by omega)
  · intro hOpen hEarly
    simp [CircuitBreaker.call, CircuitBreaker.preCheck, hOpen, not_lt.mpr hEarly]
  · intro hOpen hLate
    have hpre : cb.preCheck now = ({ cb with state := .HALF_OPEN }, true) := by
      simp [CircuitBreaker.preCheck, hOpen, hLate]
    refine ⟨hpre, ?_, ?_⟩ <;>
      simp [CircuitBreaker.call, hpre, CircuitBreaker.onSuccess]
  · intro hHalf
    simp [CircuitBreaker.call, CircuitBreaker.preCheck, CircuitBreaker.onSuccess, hHalf]

/-- Concrete run of `c2_circuit_breaker`: threshold 2, two failures trip
the breaker; a call 40 time units after the failure is rejected
unchanged; a call 90 time units after succeeds through HALF_OPEN and
closes the breaker; a HALF_OPEN success resets the count. -/
theorem c2_circuit_breaker_witness :
    ((CircuitBreaker.init 2 60).state = .CLOSED ∧ (CircuitBreaker.init 2 60).failure_count = 0) ∧
    (((CircuitBreaker.init 2 60).runCalls [(1, false), (2, false)]).state = .OPEN ∧
      ((CircuitBreaker.init 2 60).runCalls [(1, false), (2, false)]).failure_count = 2) ∧
    (CircuitBreaker.call ⟨2, 60, 2, 10, .OPEN⟩ 50 true = (⟨2, 60, 2, 10, .OPEN⟩, .rejected)) ∧
    ((CircuitBreaker.call ⟨2, 60, 2, 10, .OPEN⟩ 100 true).1.state = .CLOSED ∧
      (CircuitBreaker.call ⟨2, 60, 2, 10, .OPEN⟩ 100 true).1.failure_count = 0) ∧
    (CircuitBreaker.call ⟨2, 60, 2, 10, .HALF_OPEN⟩ 200 true = (⟨2, 60, 0, 10, .CLOSED⟩, .ok)) := by
  refine ⟨(c2_circuit_breaker 2 60 [1, 2] (CircuitBreaker.init 2 60) 0 true).1, ?_, ?_, ?_, ?_⟩
  · exact (c2_circuit_breaker 2 60 [1, 2] (CircuitBreaker.init 2 60) 0 true).2.1
      (by decide) (by decide)
  · exact (c2_circuit_breaker 2 60 [] ⟨2, 60, 2, 10, .OPEN⟩ 50 true).2.2.1 rfl (by decide)
  · have h := (c2_circuit_breaker 2 60 [] ⟨2, 60, 2, 10, .OPEN⟩ 100 true).2.2.2.1 rfl (by decide)
    exact ⟨h.2.1, h.2.2⟩
  · exact (c2_circuit_breaker 2 60 [] ⟨2, 60, 2, 10, .HALF_OPEN⟩ 200 true).2.2.2.2 rfl

/-- C3 as stated is false on the code: `insert_at_line` with
`line_number = 0` on a 3-line file does not fail with an out-of-bounds
error and does not leave the file unchanged — it reports success and
inserts the block before the last line (Python `list.insert(-1, ...)`). -/
theorem c3_insert_at_line_counterexample :
    (insert_at_line "/w" 0 [("/w/f.txt", "a\nb\nc\n")] "f.txt" "X" 0).2 =
      .dict [("success", Json.bool true), ("filename", Json.str "/w/f.txt"), ("line", Json.num 0)] ∧
    fsLookup (insert_at_line "/w" 0 [("/w/f.txt", "a\nb\nc\n")] "f.txt" "X" 0).1 "/w/f.txt" =
      some "a\nb\nX\nc\n" ∧
    ("a\nb\nX\nc\n" : String) ≠ "a\nb\nc\n" :=
  ⟨rfl, rfl, by decide⟩

/-- C3 amended: `insert_at_line` at `line_count + 1` appends the block
at end-of-file (as claimed); but a line number of 0 inserts the block
before the last line, a line number beyond `line_count + 1` also
appends at end-of-file, and in every case the call reports success —
no out-of-bounds error is raised and the file is modified. -/
theorem c3_insert_at_line_amended (cwd : String) (t : Nat) (fs : Fs)
    (filename code : String) (ln : Int) (content : String)
    (hread : fsRead fs (resolvePath cwd filename) = .ok content) :
    ((ln = ((pyReadlines content).length : Int) + 1 ∨ ln > ((pyReadlines content).length : Int) + 1) →
      fsLookup (insert_at_line cwd t fs filename code ln).1 (resolvePath cwd filename) =
        some (String.join (pyReadlines content ++ [code ++ "\n"]))) ∧
    (ln = 0 → 1 ≤ (pyReadlines content).length →
      fsLookup (insert_at_line cwd t fs filename code ln).1 (resolvePath cwd filename) =
        some (String.join ((pyReadlines content).take ((pyReadlines content).length - 1) ++
          (code ++ "\n") :: (pyReadlines content).drop ((pyReadlines content).length - 1)))) ∧
    (insert_at_line cwd t fs filename code ln).2 =
      .dict [("success", Json.bool true), ("filename", Json.str (resolvePath cwd filename)),
        ("line", Json.num ln)] := by
  have hrun : insert_at_line cwd t fs filename code ln =
      (fsWrite (fsWrite fs (backupPath (resolvePath cwd filename) t) content)
        (resolvePath cwd filename)
        (String.join (pyInsert (pyReadlines content) (ln - 1) (code ++ "\n"))),
       .dict [("success", Json.bool true), ("filename", Json.str (resolvePath cwd filename)),
         ("line", Json.num ln)]) := by
    simp [insert_at_line, hread]
  refine ⟨?_, ?_, by rw [hrun]⟩
  · intro hln
    rw [hrun]
    have hge : ((pyReadlines content).length : Int) ≤ ln - 1 := by
      rcases hln with h | h <;> omega
    rw [pyInsert_ge_length _ _ _ hge, fsLookup_fsWrite_same]
  · intro hln _
    subst hln
    rw [hrun]
    rw [show ((0 : Int) - 1 = -1) from rfl, pyInsert_neg_one, fsLookup_fsWrite_same]

/-- Concrete runs of `c3_insert_at_line_amended` on a 3-line file:
inserting at line 4 appends, inserting at line 0 lands before the last
line, and both report success. -/
theorem c3_insert_at_line_amended_witness :
    fsLookup (insert_at_line "/w" 0 [("/w/f.txt", "a\nb\nc\n")] "f.txt" "Y" 4).1 "/w/f.txt" =
      some "a\nb\nc\nY\n" ∧
    fsLookup (insert_at_line "/w" 0 [("/w/f.txt", "a\nb\nc\n")] "f.txt" "Y" 0).1 "/w/f.txt" =
      some "a\nb\nY\nc\n" ∧
    (insert_at_line "/w" 0 [("/w/f.txt", "a\nb\nc\n")] "f.txt" "Y" 4).2 =
      .dict [("success", Json.bool true), ("filename", Json.str "/w/f.txt"), ("line", Json.num 4)] :=
  ⟨(c3_insert_at_line_amended "/w" 0 [("/w/f.txt", "a\nb\nc\n")] "f.txt" "Y" 4 "a\nb\nc\n" rfl).1
      (Or.inl (by decide)),
   (c3_insert_at_line_amended "/w" 0 [("/w/f.txt", "a\nb\nc\n")] "f.txt" "Y" 0 "a\nb\nc\n" rfl).2.1
      rfl (by decide),
   (c3_insert_at_line_amended "/w" 0 [("/w/f.txt", "a\nb\nc\n")] "f.txt" "Y" 4 "a\nb\nc\n" rfl).2.2⟩

/-- C4 as stated is false on the code: `replace_code` with an absent
`old_code` does not return an exact-match-not-found error — it reports
success (while indeed leaving the file's content unmodified). -/
theorem c4_replace_code_counterexample :
    (replace_code "/w" 0 [("/w/a.txt", "hello")] "a.txt" "xyz" "Q").2 =
      .dict [("success", Json.bool true), ("filename", Json.str "/w/a.txt")] ∧
    strContains "hello" "xyz" = false ∧
    fsLookup (replace_code "/w" 0 [("/w/a.txt", "hello")] "a.txt" "xyz" "Q").1 "/w/a.txt" =
      some "hello" :=
  ⟨rfl, rfl, rfl⟩

/-- C4 amended: for every file whose content does not contain
`old_code` as a substring, `replace_code` leaves the file's content
unmodified, but it reports success — no error result is returned. -/
theorem c4_replace_code_amended (cwd : String) (t : Nat) (fs : Fs)
    (filename old_code new_code content : String)
    (hread : fsRead fs (resolvePath cwd filename) = .ok content)
    (habsent : strContains content old_code = false) :
    fsLookup (replace_code cwd t fs filename old_code new_code).1 (resolvePath cwd filename) =
      some content ∧
    (replace_code cwd t fs filename old_code new_code).2 =
      .dict [("success", Json.bool true), ("filename", Json.str (resolvePath cwd filename))] := by
  have hrun : replace_code cwd t fs filename old_code new_code =
      (fsWrite (fsWrite fs (backupPath (resolvePath cwd filename) t) content)
        (resolvePath cwd filename) (pyStrReplace content old_code new_code),
       .dict [("success", Json.bool true), ("filename", Json.str (resolvePath cwd filename))]) := by
    simp [replace_code, hread]
  rw [hrun, pyStrReplace_of_not_contains _ _ _ habsent]
  exact ⟨fsLookup_fsWrite_same _ _ _, rfl⟩

/-- Concrete run of `c4_replace_code_amended`: replacing an absent
substring reports success and leaves the content untouched. -/
theorem c4_replace_code_amended_witness :
    fsLookup (replace_code "/w" 7 [("/w/b.txt", "alpha beta")] "b.txt" "gamma" "delta").1 "/w/b.txt" =
      some "alpha beta" ∧
    (replace_code "/w" 7 [("/w/b.txt", "alpha beta")] "b.txt" "gamma" "delta").2 =
      .dict [("success", Json.bool true), ("filename", Json.str "/w/b.txt")] :=
  ⟨(c4_replace_code_amended "/w" 7 [("/w/b.txt", "alpha beta")] "b.txt" "gamma" "delta"
      "alpha beta" rfl rfl).1,
   (c4_replace_code_amended "/w" 7 [("/w/b.txt", "alpha beta")] "b.txt" "gamma" "delta"
      "alpha beta" rfl rfl).2⟩

/-- C5: evaluated at the failing input, `replace_code` substitutes
`new_code` verbatim — the file ends up holding "new" — whereas the
spec's and the tool catalog's promised re-indentation to `old_code`'s
first-line indentation would produce "  new", a different string.  The
helper `_get_indentation` exists in the source but is never called by
`replace_code`. -/
theorem c5_replace_code_no_reindent :
    fsLookup (replace_code "/w" 0 [("/w/a.txt", "  old")] "a.txt" "  old" "new").1 "/w/a.txt" =
      some "new" ∧
    specReplaceWithReindent "  old" "  old" "new" = "  new" ∧
    ("new" : String) ≠ "  new" :=
  ⟨rfl, rfl, by decide⟩

/-- C6: `run_command` refuses a command containing no allow-list token
with the security error, without consulting the subprocess oracle (the
result is the same for every oracle); an allowed command reaches the
oracle with the 30-second timeout, and a zero exit code returns the
captured stdout as success while a nonzero one returns the captured
stderr as failure. -/
theorem c6_run_command_allowlist (command : String) (e1 e2 : String → Nat → ExecOutcome)
    (rc : Int) (out err : String) :
    (commandAllowed command = false →
      run_command e1 command = "Error: Command not allowed for security reasons." ∧
      run_command e1 command = run_command e2 command) ∧
    (commandAllowed command = true → e1 command 30 = .completed rc out err →
      (rc = 0 → run_command e1 command = "Command executed successfully:\n" ++ out) ∧
      (rc ≠ 0 → run_command e1 command = "Command failed:\n" ++ err)) := by
  constructor
  · intro h
    constructor <;> simp [run_command, h]
  · intro h hx
    constructor
    · intro h0
      subst h0
      simp [run_command, h, hx]
    · intro hne
      have hb : (rc == 0) = false := beq_eq_false_iff_ne.mpr hne
      simp [run_command, h, hx, hb]

/-- Concrete runs of `c6_run_command_allowlist`: "rm -rf /" is refused
for every oracle, "git status" succeeds with stdout on exit 0 and fails
with stderr on exit 2. -/
theorem c6_run_command_allowlist_witness :
    run_command (fun _ _ => .completed 0 "OUT" "") "rm -rf /" =
      "Error: Command not allowed for security reasons." ∧
    run_command (fun _ _ => .completed 0 "OUT" "") "git status" =
      "Command executed successfully:\nOUT" ∧
    run_command (fun _ _ => .completed 2 "" "boom") "git status" = "Command failed:\nboom" :=
  ⟨((c6_run_command_allowlist "rm -rf /" (fun _ _ => .completed 0 "OUT" "")
      (fun _ _ => .completed 1 "x" "y") 0 "OUT" "").1 (by decide)).1,
   ((c6_run_command_allowlist "git status" (fun _ _ => .completed 0 "OUT" "")
      (fun _ _ => .completed 0 "OUT" "") 0 "OUT" "").2 (by decide) rfl).1 rfl,
   ((c6_run_command_allowlist "git status" (fun _ _ => .completed 2 "" "boom")
      (fun _ _ => .completed 2 "" "boom") 2 "" "boom").2 (by decide) rfl).2 (by decide)⟩

/-- C7: whenever the rate limiter's sleep completes (sleeping at least
the computed `waitTime`, since `time.sleep` never returns early), the
recorded call-start timestamp is at least `request_interval` after the
previous one — consecutive model calls are separated by at least the
configured minimum interval. -/
theorem c7_rate_limiter_gap (interval last now s : Int)
    (hpos : 0 ≤ s) (hwait : waitTime interval last now ≤ s) :
    interval ≤ nextRequestTime now s - last := by
  unfold nextRequestTime
  by_cases h : now - last < interval
  · simp only [waitTime, if_pos h] at hwait
    omega
  · omega

/-- Concrete run of `c7_rate_limiter_gap`: with the source's 16-unit
interval, a call 5 units after the last one waits 11 units, landing
exactly 16 units after it. -/
theorem c7_rate_limiter_gap_witness :
    (0 : Int) ≤ 11 ∧ waitTime 16 0 5 ≤ 11 ∧ 16 ≤ nextRequestTime 5 11 - 0 :=
  ⟨by decide, by decide, c7_rate_limiter_gap 16 0 5 11 (by decide) (by decide)⟩

/-- C8: on a text carrying exactly one fenced JSON block with the
read_file payload, extraction returns the ToolCall with name
"read_file" and arguments mapping "filename" to "x.py"; on any text
with no fenced block, or whose fenced block fails to parse as JSON,
extraction returns no tool call and preserves the original full text as
the plain reply. -/
theorem c8_tool_extraction (text : String) :
    extract_tool_call ("Here is the call:\n```json\n\x7b\"tool_call\": \x7b\"name\": \"read_file\", \"arguments\": \x7b\"filename\": \"x.py\"\x7d\x7d\x7d\n```\nDone.") =
      .toolCall "read_file" [("filename", Json.str "x.py")] ∧
    (findFencedJson text = none → extract_tool_call text = .noToolCall text) ∧
    (∀ inner, findFencedJson text = some inner → parseJson inner = none →
      extract_tool_call text = .noToolCall text) := by
  refine ⟨rfl, ?_, ?_⟩
  · intro h
    simp [extract_tool_call, h]
  · intro inner h1 h2
    simp [extract_tool_call, h1, h2]

/-- Concrete runs of `c8_tool_extraction`: a fence-free text and a
fenced but unparseable text both come back as plain replies. -/
theorem c8_tool_extraction_witness :
    extract_tool_call "hello world" = .noToolCall "hello world" ∧
    extract_tool_call "pre ```json not json ``` post" = .noToolCall "pre ```json not json ``` post" :=
  ⟨(c8_tool_extraction "hello world").2.1 rfl,
   (c8_tool_extraction "pre ```json not json ``` post").2.2 " not json " rfl rfl⟩

/-- C9: on a target file that does not exist, the replace preview
returns the 404 error naming the file while the write preview treats
the original content as empty and returns the diff of that empty
original against the proposed content; both endpoints return the
workspace unchanged (they only ever read it). -/
theorem c9_preview_missing_file (udiff : List String → List String → String → String → String)
    (fs : Fs) (filename old_code new_code content : String)
    (hname : filename ≠ "") (hmiss : fsLookup fs filename = none) :
    api_preview_replace_diff udiff fs filename old_code new_code =
      (.err 404 ("File '" ++ filename ++ "' not found."), fs) ∧
    api_preview_write_diff udiff fs filename content =
      (.okWrite (udiff (pySplitlines "") (pySplitlines content)
        (filename ++ ":original") (filename ++ ":new")), fs) := by
  have hb : (filename == "") = false := beq_eq_false_iff_ne.mpr hname
  constructor
  · simp [api_preview_replace_diff, hb, hmiss]
  · simp [api_preview_write_diff, hb, hmiss]

/-- Concrete run of `c9_preview_missing_file` on an empty workspace. -/
theorem c9_preview_missing_file_witness :
    api_preview_replace_diff (fun a b _ _ => String.intercalate "\n" (a ++ b)) [] "ghost.txt" "o" "n" =
      (.err 404 "File 'ghost.txt' not found.", []) ∧
    api_preview_write_diff (fun a b _ _ => String.intercalate "\n" (a ++ b)) [] "ghost.txt" "body" =
      (.okWrite "body", []) :=
  ⟨(c9_preview_missing_file (fun a b _ _ => String.intercalate "\n" (a ++ b)) [] "ghost.txt"
      "o" "n" "body" (by decide) rfl).1,
   (c9_preview_missing_file (fun a b _ _ => String.intercalate "\n" (a ++ b)) [] "ghost.txt"
      "o" "n" "body" (by decide) rfl).2⟩

/-- For a name that is not dangerous but is in the catalog, the gateway
binds the arguments and runs the tool (or reports the binding error). -/
theorem handle_tool_call_safe (exec : String → Nat → ExecOutcome) (cwd : String) (t : Nat)
    (fs : Fs) (name : String) (args : List (String × Json))
    (hcon : dangerous_tools.contains name = false)
    (hav : availableFunctionNames.contains name = true) :
    handle_tool_call exec cwd t fs name args =
      (match decodeInvocation name args with
       | .error e => (fs, .errorReply ("Error executing tool " ++ name ++ ": " ++ e))
       | .ok inv => ((callTool exec cwd t fs inv).1, .executed (callTool exec cwd t fs inv).2)) := by
  simp only [handle_tool_call, hcon, hav, Bool.false_eq_true, if_false, Bool.not_true]

/-- C1: a ToolCall whose name is in the dangerous set is not executed —
the gateway returns the workspace untouched together with an
action-request payload carrying the tool name and arguments; a ToolCall
named `list_files`, `read_file` or `search_files` is executed
immediately (leaving the workspace untouched, these three only read it)
and the gateway never returns an action-request for it. -/
theorem c1_dangerous_tool_gating (exec : String → Nat → ExecOutcome) (cwd : String) (t : Nat)
    (fs : Fs) (name : String) (args : List (String × Json)) :
    (name ∈ dangerous_tools →
      handle_tool_call exec cwd t fs name args = (fs, .action_request name args)) ∧
    (name ∈ ["list_files", "read_file", "search_files"] →
      (∀ inv, decodeInvocation name args = .ok inv →
        handle_tool_call exec cwd t fs name args = (fs, .executed (callTool exec cwd t fs inv).2)) ∧
      (∀ n2 a2, (handle_tool_call exec cwd t fs name args).2 ≠ .action_request n2 a2)) := by
  constructor
  · intro h
    simp only [dangerous_tools, List.mem_cons, List.not_mem_nil, or_false] at h
    rcases h with h | h | h | h | h <;> subst h <;> rfl
  · intro h
    simp only [List.mem_cons, List.not_mem_nil, or_false] at h
    rcases h with h | h | h <;> subst h
    · refine ⟨?_, ?_⟩
      · intro inv hdec
        obtain ⟨d, rfl⟩ := decode_shape_list_files args inv hdec
        rw [handle_tool_call_safe exec cwd t fs "list_files" args rfl rfl, hdec]
        exact congrArg (fun x => (x, GatewayResult.executed (callTool exec cwd t fs (.list_files d)).2))
          (list_files_fst cwd fs d)
      · intro n2 a2
        rw [handle_tool_call_safe exec cwd t fs "list_files" args rfl rfl]
        cases hdec : decodeInvocation "list_files" args <;> simp
    · refine ⟨?_, ?_⟩
      · intro inv hdec
        obtain ⟨f, s, e, rfl⟩ := decode_shape_read_file args inv hdec
        rw [handle_tool_call_safe exec cwd t fs "read_file" args rfl rfl, hdec]
        exact congrArg (fun x => (x, GatewayResult.executed (callTool exec cwd t fs (.read_file f s e)).2))
          (read_file_fst cwd fs f s e)
      · intro n2 a2
        rw [handle_tool_call_safe exec cwd t fs "read_file" args rfl rfl]
        cases hdec : decodeInvocation "read_file" args <;> simp
    · refine ⟨?_, ?_⟩
      · intro inv hdec
        obtain ⟨p, d, fp, rfl⟩ := decode_shape_search_files args inv hdec
        rw [handle_tool_call_safe exec cwd t fs "search_files" args rfl rfl, hdec]
        exact congrArg (fun x => (x, GatewayResult.executed (callTool exec cwd t fs (.search_files p d fp)).2))
          (search_files_fst cwd fs p d fp)
      · intro n2 a2
        rw [handle_tool_call_safe exec cwd t fs "search_files" args rfl rfl]
        cases hdec : decodeInvocation "search_files" args <;> simp

/-- Concrete runs of `c1_dangerous_tool_gating`: a `write_file` call
comes back as an action-request with the workspace untouched; a
`list_files` call is executed immediately. -/
theorem c1_dangerous_tool_gating_witness :
    handle_tool_call (fun _ _ => .completed 0 "" "") "/w" 0 [("/w/a.txt", "hi")] "write_file"
        [("filename", Json.str "a.txt"), ("content", Json.str "x")] =
      ([("/w/a.txt", "hi")],
       .action_request "write_file" [("filename", Json.str "a.txt"), ("content", Json.str "x")]) ∧
    handle_tool_call (fun _ _ => .completed 0 "" "") "/w" 0 [("/w/a.txt", "hi")] "list_files" [] =
      ([("/w/a.txt", "hi")],
       .executed (callTool (fun _ _ => .completed 0 "" "") "/w" 0 [("/w/a.txt", "hi")]
         (.list_files ".")).2) :=
  ⟨(c1_dangerous_tool_gating (fun _ _ => .completed 0 "" "") "/w" 0 [("/w/a.txt", "hi")]
      "write_file" [("filename", Json.str "a.txt"), ("content", Json.str "x")]).1
      (by simp [dangerous_tools]),
   ((c1_dangerous_tool_gating (fun _ _ => .completed 0 "" "") "/w" 0 [("/w/a.txt", "hi")]
      "list_files" []).2 (by simp)).1 (.list_files ".") rfl⟩

/-- C10: every catalog tool, invoked with its declared parameters,
returns a value — either the single-key error dict built by its
exception handler (an error string being part of `run_command`'s string
result), or its documented success shape — and `callTool` is total, so
no exception ever propagates to the caller. -/
theorem c10_tools_never_raise (exec : String → Nat → ExecOutcome) (cwd : String) (t : Nat)
    (fs : Fs) (inv : ToolInvocation) :
    ∃ fs2 r, callTool exec cwd t fs inv = (fs2, r) ∧
      ((∃ e, r = ToolResult.dict [("error", Json.str e)]) ∨ toolSuccessShape inv r) := by
  cases inv with
  | list_files d =>
    cases h : fsListdir fs (resolvePath cwd d) with
    | ok files =>
      exact ⟨fs, .dict [("files", Json.arr (files.map Json.str)), ("directory", Json.str (resolvePath cwd d))],
        by simp [callTool, list_files, h], Or.inr ⟨_, _, rfl⟩⟩
    | error e =>
      exact ⟨fs, .dict [("error", Json.str e)], by simp [callTool, list_files, h], Or.inl ⟨e, rfl⟩⟩
  | read_file f s e =>
    cases h : fsRead fs (resolvePath cwd f) with
    | error er =>
      exact ⟨fs, .dict [("error", Json.str er)], by simp [callTool, read_file, h], Or.inl ⟨er, rfl⟩⟩
    | ok content =>
      exact ⟨fs, .dict [("content", Json.str (readContentRange content s e)), ("filename", Json.str (resolvePath cwd f))],
        by simp [callTool, read_file, h], Or.inr ⟨_, _, rfl⟩⟩
  | write_file f c =>
    exact ⟨(callTool exec cwd t fs (.write_file f c)).1,
      .dict [("success", Json.bool true), ("filename", Json.str (resolvePath cwd f))],
      rfl, Or.inr ⟨_, rfl⟩⟩
  | delete_file f =>
    cases h0 : fsLookup fs (resolvePath cwd f) with
    | none =>
      cases h1 : fsLookup fs (resolvePath cwd f) with
      | none =>
        exact ⟨fs, .dict [("error", Json.str ("No such file or directory: " ++ resolvePath cwd f))],
          by simp [callTool, delete_file, h0], Or.inl ⟨_, rfl⟩⟩
      | some _ => rw [h0] at h1; exact absurd h1 (by simp)
    | some old =>
      cases h1 : fsLookup (fsWrite fs (backupPath (resolvePath cwd f) t) old) (resolvePath cwd f) with
      | none =>
        exact ⟨fsWrite fs (backupPath (resolvePath cwd f) t) old,
          .dict [("error", Json.str ("No such file or directory: " ++ resolvePath cwd f))],
          by simp [callTool, delete_file, h0, h1], Or.inl ⟨_, rfl⟩⟩
      | some _ =>
        exact ⟨fsRemoveAll (fsWrite fs (backupPath (resolvePath cwd f) t) old) (resolvePath cwd f),
          .dict [("success", Json.bool true), ("filename", Json.str (resolvePath cwd f))],
          by simp [callTool, delete_file, h0, h1], Or.inr ⟨_, rfl⟩⟩
  | create_directory d =>
    exact ⟨fs, .dict [("success", Json.bool true), ("directory", Json.str (resolvePath cwd d))],
      rfl, Or.inr ⟨_, rfl⟩⟩
  | insert_at_line f c ln =>
    cases h : fsRead fs (resolvePath cwd f) with
    | error er =>
      exact ⟨fs, .dict [("error", Json.str er)], by simp [callTool, insert_at_line, h], Or.inl ⟨er, rfl⟩⟩
    | ok content =>
      exact ⟨fsWrite (fsWrite fs (backupPath (resolvePath cwd f) t) content) (resolvePath cwd f)
          (String.join (pyInsert (pyReadlines content) (ln - 1) (c ++ "\n"))),
        .dict [("success", Json.bool true), ("filename", Json.str (resolvePath cwd f)), ("line", Json.num ln)],
        by simp [callTool, insert_at_line, h], Or.inr ⟨_, _, rfl⟩⟩
  | replace_code f o n =>
    cases h : fsRead fs (resolvePath cwd f) with
    | error er =>
      exact ⟨fs, .dict [("error", Json.str er)], by simp [callTool, replace_code, h], Or.inl ⟨er, rfl⟩⟩
    | ok content =>
      exact ⟨fsWrite (fsWrite fs (backupPath (resolvePath cwd f) t) content) (resolvePath cwd f)
          (pyStrReplace content o n),
        .dict [("success", Json.bool true), ("filename", Json.str (resolvePath cwd f))],
        by simp [callTool, replace_code, h], Or.inr ⟨_, rfl⟩⟩
  | search_files p d fp =>
    exact ⟨fs, .dict [("results", Json.arr ((searchMatches cwd fs p d fp).map Json.str)), ("pattern", Json.str p)],
      rfl, Or.inr ⟨_, _, rfl⟩⟩
  | run_command c =>
    exact ⟨fs, .str (run_command exec c), rfl, Or.inr ⟨_, rfl⟩⟩
